import Mathlib

/-!
Verification of the local persistence and data-consistency layer of the
PSER household-survey application (src/app.js).

The layer keeps an in-memory record list (`this.surveys`) synchronized with
two durable stores: an IndexedDB object store keyed by record id
(PrimaryStore, `this.database`) and a localStorage slot holding one
serialized JSON blob under the key `pserSurveys` (FallbackStore).

The embedding below translates the relevant methods of the `PSERSurvey`
class into pure Lean functions over an explicit application state.
Asynchronous storage outcomes (IndexedDB open / read / write success or
failure, localStorage write success or failure, `confirm()` dialogs) are
passed in as explicit oracle parameters, since in the source they arrive
as success/error callback events.
-/

namespace PSER

/-- Geolocation payload captured for a record (src/app.js `currentLocation`):
`{latitude, longitude, accuracy}`, floating point. No claim inspects these
numerics; the fields are carried opaquely. -/
structure GeoLocation where
  latitude : Float
  longitude : Float
  accuracy : Float
deriving Repr, Inhabited

/-- Livestock counts of a record (src/app.js:755-760). -/
structure Livestock where
  buffalo : Int
  cow : Int
  goat : Int
  sheep : Int
deriving Repr, Inhabited, DecidableEq

/-- Transport counts of a record (src/app.js:761-766). -/
structure Transport where
  motorcycle : Int
  car : Int
  van : Int
  scooter : Int
deriving Repr, Inhabited, DecidableEq

/-- Appliance counts of a record (src/app.js:767-773). -/
structure Appliances where
  solar : Int
  ac : Int
  geyser : Int
  washingMachine : Int
  fridge : Int
deriving Repr, Inhabited, DecidableEq

/-- One survey record, with exactly the fields built by `getFormData`
(src/app.js:735-777). Numeric form fields go through `parseInt` in the
source and are modelled as `Int`; optional fields are `Option`. -/
structure Record where
  id : String
  blockCode : String
  houseNumber : Int
  familiesCount : Int
  xFamily : String
  houseCode : String
  respondentName : String
  hohName : String
  hohFatherName : String
  hohCnic : String
  maleMembers : Int
  femaleMembers : Int
  othersMembers : Int
  totalMembers : Int
  registerNumber : Option Int
  location : Option GeoLocation
  photo : Option String
  signature : Option String
  livestock : Livestock
  transport : Transport
  appliances : Appliances
  contactNumber : String
  timestamp : String
deriving Repr, Inhabited

/-- Content of the FallbackStore slot `localStorage['pserSurveys']`:
either no value is stored, or the stored string fails `JSON.parse`
(modelled abstractly as `malformed`), or it parses to a record array. -/
inductive Blob where
  | absent
  | malformed
  | records (rs : List Record)
deriving Repr, Inhabited

/-- Application state: the nullable IndexedDB handle together with the
object-store contents (`this.database`; `none` means the store is
unavailable), the in-memory list (`this.surveys`), the current edit id
(`this.currentEditId`), and the FallbackStore slot. -/
structure AppState where
  database : Option (List Record)
  surveys : List Record
  currentEditId : Option String
  slot : Blob
deriving Repr, Inhabited

/-- Outcome of one IndexedDB write transaction in `saveToDatabase`
(src/app.js:126-174): either the clear plus all the adds succeed (`ok`),
or the transaction fails somewhere (clear error, an add error, or a
transaction error) leaving the object store with some `residual` contents
(partial writes are possible per the source's clear-then-add-each scheme). -/
inductive WriteOutcome where
  | ok
  | failed (residual : List Record)
deriving Repr, Inhabited

/-- Embeds `loadFromLocalStorage` (src/app.js:176-185): reads the slot;
an absent value yields `[]`, a `JSON.parse` exception is caught and
yields `[]`, otherwise the parsed array is returned. -/
def loadFromLocalStorage : Blob → List Record
  | Blob.absent => []
  | Blob.malformed => []
  | Blob.records rs => rs

/-- Embeds `saveToLocalStorage` (src/app.js:187-195): serializes the full
list into the slot. `lsOk = false` models `localStorage.setItem`
throwing; the exception is caught (an alert is shown) and the slot is
left as it was. -/
def saveToLocalStorage (lsOk : Bool) (surveys : List Record) (slot : Blob) : Blob :=
  if lsOk then Blob.records surveys else slot

/-- Embeds `saveToDatabase` (src/app.js:126-174). With no database handle
the list is saved to localStorage only. Otherwise the transaction clears
the store and re-adds every survey; on success the store holds the full
list, on failure it holds the outcome's residual contents. Every branch
of the source ends in `saveToLocalStorage`, so the slot is written
regardless of the IndexedDB outcome. The function is total: no failure
escapes to the caller. -/
def saveToDatabase (out : WriteOutcome) (lsOk : Bool) (st : AppState) : AppState :=
  match st.database with
  | none => { st with slot := saveToLocalStorage lsOk st.surveys st.slot }
  | some _ =>
      match out with
      | WriteOutcome.ok =>
          { st with database := some st.surveys,
                    slot := saveToLocalStorage lsOk st.surveys st.slot }
      | WriteOutcome.failed residual =>
          { st with database := some residual,
                    slot := saveToLocalStorage lsOk st.surveys st.slot }

/-- Embeds `loadFromDatabase` (src/app.js:94-124). With no handle it
falls back to localStorage. Otherwise `getAll` either succeeds
(`readOk`), populating the list from the store and mirroring a non-empty
result into localStorage, or fails, falling back to localStorage. -/
def loadFromDatabase (readOk lsOk : Bool) (st : AppState) : AppState :=
  match st.database with
  | none => { st with surveys := loadFromLocalStorage st.slot }
  | some db =>
      if readOk then
        if db.length > 0 then
          { st with surveys := db, slot := saveToLocalStorage lsOk db st.slot }
        else
          { st with surveys := db }
      else
        { st with surveys := loadFromLocalStorage st.slot }

/-- Embeds `initDatabase` (src/app.js:62-92) starting from the durable
world left by a previous session: `primary` is what the object store
holds, `slot` the localStorage blob. If `indexedDB.open` fails the handle
stays `null` and the list is loaded from localStorage; on success the
handle is set and `loadFromDatabase` runs. The in-memory list starts
empty (constructor, src/app.js:7). -/
def initDatabase (openOk readOk lsOk : Bool) (primary : List Record) (slot : Blob) : AppState :=
  if openOk then
    loadFromDatabase readOk lsOk
      { database := some primary, surveys := [], currentEditId := none, slot := slot }
  else
    { database := none, surveys := loadFromLocalStorage slot, currentEditId := none, slot := slot }

/-- Embeds JavaScript `Array.prototype.findIndex` as used at
src/app.js:785: the index of the first element satisfying the predicate,
or `-1`. -/
def findIndex (p : Record → Bool) : List Record → Int
  | [] => -1
  | s :: rest =>
      if p s then 0
      else if findIndex p rest = -1 then -1 else findIndex p rest + 1

/-- Embeds `getFormData` (src/app.js:735-777) for the field that matters
to the repository: the record id is `this.currentEditId ||
Date.now().toString()` (src/app.js:737). All other fields are read from
the form, supplied here as `b`; `b`'s own id field is ignored, as the
form has no id field. -/
def getFormData (currentEditId : Option String) (now : String) (b : Record) : Record :=
  { b with id := currentEditId.getD now }

/-- The list mutation inside `saveSurvey` (src/app.js:784-791): when
`currentEditId` is set, the first record whose id equals it is replaced
in place (no-op if `findIndex` returns `-1`); otherwise the new record is
pushed at the end. -/
def saveSurveyList (currentEditId : Option String) (surveys : List Record)
    (surveyData : Record) : List Record :=
  match currentEditId with
  | some editId =>
      let index := findIndex (fun s => s.id == editId) surveys
      if index != -1 then surveys.set index.toNat surveyData else surveys
  | none => surveys ++ [surveyData]

/-- Embeds `saveSurvey` (src/app.js:779-808). `valid` is the result of
the `validateForm` UI check (field formats, out of repository scope);
when it fails the method returns with no state change. Otherwise the form
data is built, the list is mutated per `saveSurveyList`, and
`saveToDatabase` runs. With `isNew` the form is cleared, resetting
`currentEditId`. -/
def saveSurvey (valid : Bool) (out : WriteOutcome) (lsOk : Bool) (st : AppState)
    (isNew : Bool) (now : String) (b : Record) : AppState :=
  if !valid then st
  else
    let surveyData := getFormData st.currentEditId now b
    let st1 := { st with surveys := saveSurveyList st.currentEditId st.surveys surveyData }
    let st2 := saveToDatabase out lsOk st1
    if isNew then { st2 with currentEditId := none } else st2

/-- Embeds `deleteSurvey` (src/app.js:1068-1076): behind a `confirm()`
dialog (`confirmOk`), the list is filtered to the records whose id
differs, then `saveToLocalStorage` and `saveToDatabase` run. -/
def deleteSurvey (confirmOk : Bool) (out : WriteOutcome) (lsOk : Bool)
    (st : AppState) (id : String) : AppState :=
  if confirmOk then
    let st1 := { st with surveys := st.surveys.filter (fun s => s.id != id) }
    let st2 := { st1 with slot := saveToLocalStorage lsOk st1.surveys st1.slot }
    saveToDatabase out lsOk st2
  else st

/-- Shape of an uploaded backup file after `JSON.parse`
(src/app.js:1399-1403): the parse may throw (`malformed`), or the parsed
object may lack a truthy `surveys` property, or have one that is not an
array, or have a proper record array. -/
inductive BackupContent where
  | malformed
  | noSurveysKey
  | surveysNotArray
  | surveys (rs : List Record)
deriving Repr, Inhabited

/-- Result signalled by `restoreBackup` to the user: the success alert
with the restored count, the format-error alert (`Invalid backup file
format`, also shown when `JSON.parse` throws), or the `confirm()` dialog
being declined. -/
inductive RestoreOutcome where
  | restored (n : Nat)
  | formatError
  | cancelled
deriving Repr, Inhabited

/-- Embeds `restoreBackup` (src/app.js:1392-1425): malformed content or a
missing / non-array `surveys` property throws, the exception is caught
and only the error alert runs — no state is touched. A well-formed file
replaces the list after user confirmation and persists via
`saveToDatabase`. -/
def restoreBackup (content : BackupContent) (confirmOk : Bool) (out : WriteOutcome)
    (lsOk : Bool) (st : AppState) : AppState × RestoreOutcome :=
  match content with
  | BackupContent.surveys rs =>
      if confirmOk then
        (saveToDatabase out lsOk { st with surveys := rs }, RestoreOutcome.restored rs.length)
      else (st, RestoreOutcome.cancelled)
  | _ => (st, RestoreOutcome.formatError)

/-- Digit filtering, embedding the `replace(/\D/g, '')` calls at
src/app.js:865 and 867. -/
def digitsOnly (s : String) : String :=
  String.mk (s.toList.filter Char.isDigit)

/-- Helper for substring search: does the second list occur at the head
of the first? -/
def listStartsWith : List Char → List Char → Bool
  | _, [] => true
  | [], _ :: _ => false
  | h :: t, h2 :: t2 => h == h2 && listStartsWith t t2

/-- Helper for substring search: does `needle` occur contiguously
anywhere in the second list? -/
def listContainsSeq (needle : List Char) : List Char → Bool
  | [] => listStartsWith [] needle
  | c :: t => listStartsWith (c :: t) needle || listContainsSeq needle t

/-- Embeds JavaScript `String.prototype.includes` as used at
src/app.js:867: substring containment. -/
def strIncludes (s sub : String) : Bool :=
  listContainsSeq sub.toList s.toList

/-- Helper embedding the de-duplication filter at src/app.js:872-874:
keep each element only at the first index carrying its id. -/
def dedupeByIdGo (seen : List String) : List Record → List Record
  | [] => []
  | r :: t =>
      if seen.contains r.id then dedupeByIdGo seen t
      else r :: dedupeByIdGo (r.id :: seen) t

/-- The combined-results filter of `searchSurvey` (src/app.js:871-874):
keeps the first occurrence of each id. -/
def dedupeById (l : List Record) : List Record := dedupeByIdGo [] l

/-- Embeds `searchSurvey` (src/app.js:848-881). An input is `none` when
its form field is missing or empty (falsy value in the source); both
empty aborts with an alert (`none` result). The house query is the
`parseInt` of the house-number field; records are filtered by exact
equality. The CNIC query is filtered to digits and matched by substring
containment against each record's digits-only CNIC. When both criteria
produced results they are concatenated and de-duplicated by id; a
non-empty CNIC result alone replaces the house results; otherwise the
house results stand. -/
def searchSurvey (houseQuery : Option Int) (cnicQuery : Option String)
    (surveys : List Record) : Option (List Record) :=
  if houseQuery = none ∧ cnicQuery = none then none
  else
    let results : List Record :=
      match houseQuery with
      | some n => surveys.filter (fun s => s.houseNumber == n)
      | none => []
    let results2 : List Record :=
      match cnicQuery with
      | some c =>
          let searchCnic := digitsOnly c
          let cnicResults := surveys.filter (fun s => strIncludes (digitsOnly s.hohCnic) searchCnic)
          if results.length > 0 && cnicResults.length > 0 then
            dedupeById (results ++ cnicResults)
          else if cnicResults.length > 0 then cnicResults
          else results
      | none => results
    some results2

/-- A concrete record used to exercise the operations. -/
def sampleRecord : Record where
  id := "0"
  blockCode := "162030416"
  houseNumber := 101
  familiesCount := 1
  xFamily := "no"
  houseCode := "162030416-101-1"
  respondentName := "Resp"
  hohName := "Hoh"
  hohFatherName := "Father"
  hohCnic := "33301-1234567-1"
  maleMembers := 2
  femaleMembers := 2
  othersMembers := 0
  totalMembers := 4
  registerNumber := none
  location := none
  photo := none
  signature := none
  livestock := ⟨0, 0, 0, 0⟩
  transport := ⟨1, 0, 0, 0⟩
  appliances := ⟨0, 0, 0, 0, 0⟩
  contactNumber := "0345-1234567"
  timestamp := "2025-01-01T00:00:00.000Z"

/-- A second concrete record with a different id, house number and CNIC. -/
def sampleRecord2 : Record :=
  { sampleRecord with id := "2", houseNumber := 102, hohCnic := "33301-7654321-9" }

/-- Unfolding lemma for `findIndex` on the empty list. -/
theorem findIndex_nil (p : Record → Bool) : findIndex p [] = -1 := rfl

/-- Unfolding lemma for `findIndex` on a cons cell. -/
theorem findIndex_cons (p : Record → Bool) (x : Record) (t : List Record) :
    findIndex p (x :: t) =
      if p x then 0
      else if findIndex p t = -1 then -1 else findIndex p t + 1 := rfl

/-- A JavaScript `findIndex` result is `-1` or a valid nonnegative index. -/
theorem findIndex_neg_one_or_nonneg (p : Record → Bool) (l : List Record) :
    findIndex p l = -1 ∨ 0 ≤ findIndex p l := by
  induction l with
  | nil => exact Or.inl rfl
  | cons x t ih =>
      rw [findIndex_cons]
      by_cases hx : p x = true
      · simp [hx]
      · rcases ih with h | h
        · simp [hx, h]
        · by_cases ht : findIndex p t = -1
          · simp [hx, ht]
          · simp only [hx, if_false, ht]
            right
            omega

/-- The `findIndex` result is `-1` exactly when no element satisfies the
predicate. -/
theorem findIndex_eq_neg_one_iff (p : Record → Bool) (l : List Record) :
    findIndex p l = -1 ↔ ∀ s ∈ l, p s = false := by
  induction l with
  | nil => simp [findIndex_nil]
  | cons x t ih =>
      rw [findIndex_cons]
      by_cases hx : p x = true
      · simp [hx]
      · by_cases ht : findIndex p t = -1
        · rw [if_neg hx, if_pos ht]
          constructor
          · intro _ s hs
            rcases List.mem_cons.mp hs with h | h
            · subst h; exact Bool.eq_false_iff.mpr hx
            · exact (ih.mp ht) s h
          · intro _; rfl
        · have hge : 0 ≤ findIndex p t := by
            rcases findIndex_neg_one_or_nonneg p t with h | h
            · exact absurd h ht
            · exact h
          simp only [hx, if_false, ht]
          constructor
          · intro h; omega
          · intro h
            exact absurd (ih.mpr (fun s hs => h s (List.mem_cons_of_mem x hs))) ht

/-- When `findIndex` is not `-1`, its value is a nonnegative index into
the list and the element there satisfies the predicate. -/
theorem findIndex_spec (p : Record → Bool) (l : List Record)
    (h : findIndex p l ≠ -1) :
    0 ≤ findIndex p l ∧ (findIndex p l).toNat < l.length ∧
      ∃ s, l[(findIndex p l).toNat]? = some s ∧ p s = true := by
  induction l with
  | nil => exact absurd (findIndex_nil p) h
  | cons x t ih =>
      rw [findIndex_cons] at h ⊢
      by_cases hx : p x = true
      · simp [hx]
      · by_cases ht : findIndex p t = -1
        · simp [hx, ht] at h
        · obtain ⟨h1, h2, s, hget, hp⟩ := ih ht
          have ht1 : (findIndex p t + 1).toNat = (findIndex p t).toNat + 1 := by omega
          rw [if_neg hx, if_neg ht, ht1]
          refine ⟨by omega, by simpa using Nat.succ_lt_succ h2, s, ?_, hp⟩
          simpa using hget

/-- Replacing a list element by one with the same predicate value leaves
`countP` unchanged. -/
theorem countP_set_same (p : Record → Bool) (l : List Record) (i : Nat)
    (r s : Record) (hget : l[i]? = some s) (hs : p s = p r) :
    (l.set i r).countP p = l.countP p := by
  induction l generalizing i with
  | nil => simp at hget
  | cons x t ih =>
      cases i with
      | zero =>
          simp only [List.getElem?_cons_zero, Option.some.injEq] at hget
          subst hget
          simp [List.countP_cons, hs]
      | succ n =>
          simp only [List.getElem?_cons_succ] at hget
          simp [List.countP_cons, ih n hget]

/-- Persisting never changes the in-memory list: `saveToDatabase` only
touches the stores. -/
theorem saveToDatabase_surveys (out : WriteOutcome) (lsOk : Bool) (st : AppState) :
    (saveToDatabase out lsOk st).surveys = st.surveys := by
  rcases st with ⟨db, surveys, eid, slot⟩
  cases db <;> cases out <;> rfl

/-- Persisting never changes the current edit id. -/
theorem saveToDatabase_currentEditId (out : WriteOutcome) (lsOk : Bool) (st : AppState) :
    (saveToDatabase out lsOk st).currentEditId = st.currentEditId := by
  rcases st with ⟨db, surveys, eid, slot⟩
  cases db <;> cases out <;> rfl

/-- When the localStorage write goes through, every branch of
`saveToDatabase` leaves the FallbackStore slot holding the full
in-memory list. -/
theorem saveToDatabase_slot (out : WriteOutcome) (st : AppState) :
    (saveToDatabase out true st).slot = Blob.records st.surveys := by
  rcases st with ⟨db, surveys, eid, slot⟩
  cases db <;> cases out <;> rfl

/-- Persisting with no database handle leaves the handle absent. -/
theorem saveToDatabase_database_none (out : WriteOutcome) (lsOk : Bool) (st : AppState)
    (h : st.database = none) : (saveToDatabase out lsOk st).database = none := by
  rcases st with ⟨db, surveys, eid, slot⟩
  cases db
  · cases out <;> rfl
  · simp at h

/-- With no edit id pending, `saveSurvey` appends the submitted record. -/
theorem saveSurveyList_none_eq (l : List Record) (r : Record) :
    saveSurveyList none l r = l ++ [r] := rfl

/-- When no record carries the edit id, the `saveSurvey` list mutation is
a no-op: `findIndex` returns `-1` and neither branch fires. -/
theorem saveSurveyList_absent (e : String) (l : List Record) (r : Record)
    (h : ∀ s ∈ l, s.id ≠ e) : saveSurveyList (some e) l r = l := by
  have hidx : findIndex (fun s => s.id == e) l = -1 :=
    (findIndex_eq_neg_one_iff _ _).mpr (fun s hs => by
      simpa using h s hs)
  simp [saveSurveyList, hidx]

/-- When some record carries the edit id, the `saveSurvey` list mutation
replaces the first such record in place. -/
theorem saveSurveyList_present (e : String) (l : List Record) (r : Record)
    (h : ∃ s ∈ l, s.id = e) :
    ∃ i s, l[i]? = some s ∧ s.id = e ∧
      saveSurveyList (some e) l r = l.set i r := by
  have hne : findIndex (fun s => s.id == e) l ≠ -1 := by
    intro hcontr
    obtain ⟨s, hs, hid⟩ := h
    have := (findIndex_eq_neg_one_iff _ _).mp hcontr s hs
    simp [hid] at this
  obtain ⟨h1, h2, s, hget, hp⟩ := findIndex_spec _ _ hne
  have hcond : ((findIndex (fun s => s.id == e) l) != -1) = true := bne_iff_ne.mpr hne
  exact ⟨_, s, hget, by simpa using hp, by simp [saveSurveyList, hcond]⟩

/-- One `saveSurvey` list mutation grows the list by at most one. -/
theorem saveSurveyList_length_le (c : Option String) (l : List Record) (r : Record) :
    (saveSurveyList c l r).length ≤ l.length + 1 := by
  cases c with
  | none => simp [saveSurveyList]
  | some e =>
      by_cases hc : ((findIndex (fun s => s.id == e) l) != -1) = true
      · simp [saveSurveyList, hc]
      · simp [saveSurveyList, hc]

/-- Replacing the first record carrying the edit id by a record with the
same id preserves both the number of records with that id and the list
length. -/
theorem saveSurveyList_edit_preserves (e : String) (l : List Record) (r : Record)
    (hr : r.id = e) (hc : 0 < l.countP (fun s => s.id == e)) :
    (saveSurveyList (some e) l r).countP (fun s => s.id == e) =
        l.countP (fun s => s.id == e) ∧
      (saveSurveyList (some e) l r).length = l.length := by
  have hex : ∃ s ∈ l, s.id = e := by
    obtain ⟨s, hs, hp⟩ := List.countP_pos_iff.mp hc
    exact ⟨s, hs, by simpa using hp⟩
  obtain ⟨i, s, hget, hid, heq⟩ := saveSurveyList_present e l r hex
  rw [heq]
  constructor
  · exact countP_set_same _ l i r s hget (by simp [hid, hr])
  · exact List.length_set l i r

/-- The in-memory list after `saveSurvey` (validation passed) is exactly
the `saveSurveyList` mutation of the old list; persistence and the
`isNew` form reset do not touch it. -/
theorem saveSurvey_surveys_eq (out : WriteOutcome) (lsOk isNew : Bool)
    (st : AppState) (now : String) (b : Record) :
    (saveSurvey true out lsOk st isNew now b).surveys =
      saveSurveyList st.currentEditId st.surveys (getFormData st.currentEditId now b) := by
  cases isNew <;> simp [saveSurvey, saveToDatabase_surveys]

/-- The current edit id after a `saveSurvey` with `isNew = false` is
unchanged. -/
theorem saveSurvey_currentEditId (out : WriteOutcome) (lsOk : Bool)
    (st : AppState) (now : String) (b : Record) :
    (saveSurvey true out lsOk st false now b).currentEditId = st.currentEditId := by
  simp [saveSurvey, saveToDatabase_currentEditId]

/-- C8: `FallbackStore.read()` (loadFromLocalStorage) returns the empty
record list, not a failure, both when the stored blob is absent and when
its content is malformed: the `JSON.parse` exception is caught and
treated as no data. The function is total, so no error can surface. -/
theorem loadFromLocalStorage_absent_malformed_empty :
    loadFromLocalStorage Blob.absent = [] ∧ loadFromLocalStorage Blob.malformed = [] :=
  ⟨rfl, rfl⟩

/-- C6: restoring a backup whose content lacks a `surveys` key or whose
`surveys` value is not an array is rejected with the format error, and
the whole application state — in particular the in-memory record list —
is completely unchanged, for every state and every oracle outcome. -/
theorem restoreBackup_rejects_bad_shape (st : AppState) (confirmOk : Bool)
    (out : WriteOutcome) (lsOk : Bool) :
    restoreBackup BackupContent.noSurveysKey confirmOk out lsOk st =
        (st, RestoreOutcome.formatError) ∧
      restoreBackup BackupContent.surveysNotArray confirmOk out lsOk st =
        (st, RestoreOutcome.formatError) :=
  ⟨rfl, rfl⟩

/-- C3: after every `saveToDatabase` call — PrimaryStore write succeeded
(`ok`), failed (`failed residual`), or PrimaryStore unavailable
(`st.database = none`) — the FallbackStore slot holds the full in-memory
record list (the fallback write itself going through, `lsOk = true`),
and the in-memory list is untouched. -/
theorem saveToDatabase_always_mirrors_fallback (st : AppState) (out : WriteOutcome) :
    (saveToDatabase out true st).slot = Blob.records st.surveys ∧
      (saveToDatabase out true st).surveys = st.surveys :=
  ⟨saveToDatabase_slot out st, saveToDatabase_surveys out true st⟩

/-- C4: when `indexedDB.open` fails, `load()` (initDatabase) returns
exactly the parsed FallbackStore contents and leaves the handle absent;
every subsequent `saveToDatabase` on a handle-less state completes (it is
a total function, so nothing is thrown), writes the in-memory list to the
FallbackStore, and keeps the handle absent, so the same holds for all
later persists. -/
theorem initDatabase_open_failure_fallback (primary l : List Record)
    (slot slot2 : Blob) (readOk lsOk : Bool) (eid : Option String) (out : WriteOutcome) :
    (initDatabase false readOk lsOk primary slot).surveys = loadFromLocalStorage slot ∧
      (initDatabase false readOk lsOk primary slot).database = none ∧
      (saveToDatabase out true ⟨none, l, eid, slot2⟩).slot = Blob.records l ∧
      (saveToDatabase out true ⟨none, l, eid, slot2⟩).database = none ∧
      (saveToDatabase out true ⟨none, l, eid, slot2⟩).surveys = l :=
  ⟨rfl, rfl, rfl, rfl, rfl⟩

/-- C1: a fully successful `persist()` (PrimaryStore available, write
transaction `ok`, fallback write through) followed by `load()` on a
fresh session whose durable stores hold what persist wrote yields the
in-memory record list exactly — same ids, same field values — whatever
the open/read/mirror outcomes of that later load are. -/
theorem persist_then_load_roundtrip (l p : List Record) (slot : Blob)
    (eid : Option String) (openOk readOk lsOk2 : Bool) :
    (initDatabase openOk readOk lsOk2
        ((saveToDatabase WriteOutcome.ok true ⟨some p, l, eid, slot⟩).database.getD [])
        ((saveToDatabase WriteOutcome.ok true ⟨some p, l, eid, slot⟩).slot)).surveys = l := by
  have h1 : saveToDatabase WriteOutcome.ok true ⟨some p, l, eid, slot⟩ =
      ⟨some l, l, eid, Blob.records l⟩ := rfl
  rw [h1]
  cases openOk with
  | false => rfl
  | true =>
      cases readOk with
      | false => rfl
      | true =>
          cases l with
          | nil => rfl
          | cons x t =>
              simp [initDatabase, loadFromDatabase, saveToLocalStorage]

/-- C9: `deleteSurvey` (confirmed) removes exactly the records carrying
the given id: afterwards no record with that id remains, every record
with a different id is retained, and when no record had that id in the
first place the list is completely unchanged — a no-op, not an error. -/
theorem deleteSurvey_removes_or_noop (st : AppState) (i : String) (out : WriteOutcome) :
    (deleteSurvey true out true st i).surveys = st.surveys.filter (fun s => s.id != i) ∧
      (∀ s ∈ (deleteSurvey true out true st i).surveys, s.id ≠ i) ∧
      (∀ s ∈ st.surveys, s.id ≠ i → s ∈ (deleteSurvey true out true st i).surveys) ∧
      ((∀ s ∈ st.surveys, s.id ≠ i) → (deleteSurvey true out true st i).surveys = st.surveys) := by
  have hbase : (deleteSurvey true out true st i).surveys =
      st.surveys.filter (fun s => s.id != i) := by
    simp [deleteSurvey, saveToDatabase_surveys]
  refine ⟨hbase, ?_, ?_, ?_⟩
  · intro s hs
    rw [hbase] at hs
    have := (List.mem_filter.mp hs).2
    simpa using this
  · intro s hs hne
    rw [hbase]
    exact List.mem_filter.mpr ⟨hs, by simpa using hne⟩
  · intro h
    rw [hbase]
    apply List.filter_eq_self.mpr
    intro s hs
    simpa using h s hs

/-- Closed witness for C9 at a concrete input: deleting the absent id
`"zzz"` from the one-record list leaves it unchanged, and deleting the
present id `"0"` removes that record. -/
theorem deleteSurvey_removes_or_noop_witness :
    (deleteSurvey true WriteOutcome.ok true
        ⟨some [], [sampleRecord], none, Blob.absent⟩ "zzz").surveys = [sampleRecord] ∧
      (deleteSurvey true WriteOutcome.ok true
        ⟨some [], [sampleRecord], none, Blob.absent⟩ "0").surveys =
          [sampleRecord].filter (fun s => s.id != "0") := by
  constructor
  · exact (deleteSurvey_removes_or_noop
      ⟨some [], [sampleRecord], none, Blob.absent⟩ "zzz" WriteOutcome.ok).2.2.2
      (by intro s hs; simp only [List.mem_singleton] at hs; subst hs; decide)
  · exact (deleteSurvey_removes_or_noop
      ⟨some [], [sampleRecord], none, Blob.absent⟩ "0" WriteOutcome.ok).1

/-- C10: saving in edit mode (`currentEditId = some e`) while no record
in the list carries id `e` leaves the in-memory list unchanged: the
submitted record is silently dropped, neither substituted nor appended. -/
theorem saveSurvey_edit_missing_id_noop (st : AppState) (out : WriteOutcome)
    (lsOk isNew : Bool) (now : String) (b : Record) (e : String)
    (he : st.currentEditId = some e) (h : ∀ s ∈ st.surveys, s.id ≠ e) :
    (saveSurvey true out lsOk st isNew now b).surveys = st.surveys := by
  rw [saveSurvey_surveys_eq, he]
  exact saveSurveyList_absent e st.surveys _ h

/-- Closed witness for C10: saving with pending edit id `"zzz"` over a
list whose single record has id `"0"` leaves the list as it was. -/
theorem saveSurvey_edit_missing_id_noop_witness :
    (saveSurvey true WriteOutcome.ok true
        ⟨some [], [sampleRecord], some "zzz", Blob.absent⟩ false "99" sampleRecord2).surveys =
      [sampleRecord] :=
  saveSurvey_edit_missing_id_noop
    ⟨some [], [sampleRecord], some "zzz", Blob.absent⟩ WriteOutcome.ok true false
    "99" sampleRecord2 "zzz" rfl
    (by intro s hs; simp only [List.mem_singleton] at hs; subst hs; decide)

/-- C7: a house-number-only search returns exactly the records whose
`houseNumber` equals the searched number, and a CNIC-only search returns
exactly the records whose digits-only CNIC contains the query's digits
as a substring — characterized both as the literal filter and by
membership. -/
theorem searchSurvey_single_criterion (surveys : List Record) (n : Int) (c : String) :
    searchSurvey (some n) none surveys =
        some (surveys.filter (fun s => s.houseNumber == n)) ∧
      (∀ s, s ∈ surveys.filter (fun s => s.houseNumber == n) ↔
        s ∈ surveys ∧ s.houseNumber = n) ∧
      searchSurvey none (some c) surveys =
        some (surveys.filter (fun s => strIncludes (digitsOnly s.hohCnic) (digitsOnly c))) ∧
      (∀ s, s ∈ surveys.filter (fun s => strIncludes (digitsOnly s.hohCnic) (digitsOnly c)) ↔
        s ∈ surveys ∧ strIncludes (digitsOnly s.hohCnic) (digitsOnly c) = true) := by
  refine ⟨rfl, ?_, ?_, ?_⟩
  · intro s
    simp [List.mem_filter]
  · by_cases h :
      (surveys.filter (fun s => strIncludes (digitsOnly s.hohCnic) (digitsOnly c))).length > 0
    · simp [searchSurvey, h]
    · have h0 : surveys.filter (fun s => strIncludes (digitsOnly s.hohCnic) (digitsOnly c)) = [] :=
        List.length_eq_zero.mp (by omega)
      simp [searchSurvey, h0]
  · intro s
    simp [List.mem_filter]

/-- C2 counterexample: with a pending edit id `"1"` and an empty
in-memory list, the submitted record carries id `"1"`, no record with
that id exists, yet `saveSurvey` does not append it — the list stays
empty, contradicting the claim that a record whose id is absent is
appended at the end. -/
theorem saveSurvey_upsert_claim_counterexample :
    (saveSurvey true WriteOutcome.ok true ⟨some [], [], some "1", Blob.absent⟩
        false "99" sampleRecord).surveys = [] ∧
      (saveSurvey true WriteOutcome.ok true ⟨some [], [], some "1", Blob.absent⟩
        false "99" sampleRecord).surveys ≠
        [] ++ [getFormData (some "1") "99" sampleRecord] := by
  refine ⟨rfl, ?_⟩
  intro h
  rw [show (saveSurvey true WriteOutcome.ok true ⟨some [], [], some "1", Blob.absent⟩
      false "99" sampleRecord).surveys = [] from rfl] at h
  simp at h

/-- C2 amended: the mode, not the id-set, selects the branch. With no
pending edit id the record (which then gets the fresh id `now`) is
appended, growing the list by one. With a pending edit id `e` the record
gets id `e` and: if some record carries id `e`, the first such record is
replaced at its position (the rest of the list untouched, length
unchanged); if none does, the list is unchanged and the record dropped. -/
theorem saveSurvey_upsert_amended (st : AppState) (out : WriteOutcome)
    (lsOk isNew : Bool) (now : String) (b : Record) (e : String) :
    (st.currentEditId = none →
        (saveSurvey true out lsOk st isNew now b).surveys =
            st.surveys ++ [getFormData st.currentEditId now b] ∧
          (saveSurvey true out lsOk st isNew now b).surveys.length =
            st.surveys.length + 1 ∧
          (getFormData st.currentEditId now b).id = now) ∧
      (st.currentEditId = some e → (∃ s ∈ st.surveys, s.id = e) →
        ∃ i s, st.surveys[i]? = some s ∧ s.id = e ∧
          (saveSurvey true out lsOk st isNew now b).surveys =
            st.surveys.set i (getFormData st.currentEditId now b) ∧
          (saveSurvey true out lsOk st isNew now b).surveys.length =
            st.surveys.length ∧
          (getFormData st.currentEditId now b).id = e) ∧
      (st.currentEditId = some e → (∀ s ∈ st.surveys, s.id ≠ e) →
        (saveSurvey true out lsOk st isNew now b).surveys = st.surveys) := by
  refine ⟨?_, ?_, ?_⟩
  · intro he
    rw [saveSurvey_surveys_eq, he, saveSurveyList_none_eq]
    refine ⟨rfl, by simp, by simp [getFormData]⟩
  · intro he hex
    obtain ⟨i, s, hget, hid, heq⟩ :=
      saveSurveyList_present e st.surveys (getFormData st.currentEditId now b) hex
    rw [he] at heq
    refine ⟨i, s, hget, hid, ?_, ?_, ?_⟩
    · rw [saveSurvey_surveys_eq, he]
      exact heq
    · rw [saveSurvey_surveys_eq, he, heq, List.length_set]
    · simp [getFormData, he]
  · intro he h
    rw [saveSurvey_surveys_eq, he]
    exact saveSurveyList_absent e st.surveys _ h

/-- Closed witness for the amended C2: editing the single record with id
`"0"` replaces it in place (position 0, length still 1), and a save with
no pending edit id appends. -/
theorem saveSurvey_upsert_amended_witness :
    (∃ i s, ([sampleRecord])[i]? = some s ∧ s.id = "0" ∧
        (saveSurvey true WriteOutcome.ok true
            ⟨some [], [sampleRecord], some "0", Blob.absent⟩ false "99" sampleRecord2).surveys =
          [sampleRecord].set i (getFormData (some "0") "99" sampleRecord2) ∧
        (saveSurvey true WriteOutcome.ok true
            ⟨some [], [sampleRecord], some "0", Blob.absent⟩ false "99" sampleRecord2).surveys.length =
          ([sampleRecord] : List Record).length ∧
        (getFormData (some "0") "99" sampleRecord2).id = "0") ∧
      (saveSurvey true WriteOutcome.ok true
          ⟨some [], [sampleRecord], none, Blob.absent⟩ false "99" sampleRecord2).surveys =
        [sampleRecord] ++ [getFormData none "99" sampleRecord2] := by
  constructor
  · exact (saveSurvey_upsert_amended
      ⟨some [], [sampleRecord], some "0", Blob.absent⟩ WriteOutcome.ok true false
      "99" sampleRecord2 "0").2.1 rfl ⟨sampleRecord, List.mem_singleton.mpr rfl, rfl⟩
  · exact ((saveSurvey_upsert_amended
      ⟨some [], [sampleRecord], none, Blob.absent⟩ WriteOutcome.ok true false
      "99" sampleRecord2 "0").1 rfl).1

/-- C5 counterexample: with pending edit id `"1"` and an empty list,
upserting the same record (which carries id `"1"`) twice leaves zero
entries with that id, not exactly one — both calls silently drop it. -/
theorem upsert_idempotence_claim_counterexample :
    (saveSurvey true WriteOutcome.ok true
        (saveSurvey true WriteOutcome.ok true ⟨some [], [], some "1", Blob.absent⟩
          false "99" sampleRecord)
        false "99" sampleRecord).surveys = [] ∧
      (saveSurvey true WriteOutcome.ok true
        (saveSurvey true WriteOutcome.ok true ⟨some [], [], some "1", Blob.absent⟩
          false "99" sampleRecord)
        false "99" sampleRecord).surveys.countP (fun s => s.id == "1") ≠ 1 := by
  refine ⟨rfl, ?_⟩
  intro h
  rw [show (saveSurvey true WriteOutcome.ok true
      (saveSurvey true WriteOutcome.ok true ⟨some [], [], some "1", Blob.absent⟩
        false "99" sampleRecord)
      false "99" sampleRecord).surveys = [] from rfl] at h
  simp at h

/-- C5 amended: when the pending edit id `e` matches exactly one record,
upserting a record twice through edit mode leaves exactly one entry with
id `e` and the list length unchanged; and in general every single upsert
grows the list by at most one, so each distinct id accounts for at most
one net new entry per successful append. -/
theorem upsert_idempotent_amended (st : AppState) (e : String)
    (out1 out2 : WriteOutcome) (ls1 ls2 : Bool) (now1 now2 : String) (b : Record) :
    (st.currentEditId = some e →
        st.surveys.countP (fun s => s.id == e) = 1 →
        (saveSurvey true out2 ls2 (saveSurvey true out1 ls1 st false now1 b)
            false now2 b).surveys.countP (fun s => s.id == e) = 1 ∧
          (saveSurvey true out2 ls2 (saveSurvey true out1 ls1 st false now1 b)
            false now2 b).surveys.length = st.surveys.length) ∧
      ∀ (c : Option String) (l : List Record) (r : Record),
        (saveSurveyList c l r).length ≤ l.length + 1 := by
  constructor
  · intro he hcount
    have hid1 : (getFormData st.currentEditId now1 b).id = e := by
      simp [getFormData, he]
    have step1 := saveSurveyList_edit_preserves e st.surveys
      (getFormData st.currentEditId now1 b) hid1 (by omega)
    have hs1 : (saveSurvey true out1 ls1 st false now1 b).surveys =
        saveSurveyList (some e) st.surveys (getFormData st.currentEditId now1 b) := by
      rw [saveSurvey_surveys_eq, he]
    have he1 : (saveSurvey true out1 ls1 st false now1 b).currentEditId = some e := by
      rw [saveSurvey_currentEditId, he]
    have hid2 : (getFormData (saveSurvey true out1 ls1 st false now1 b).currentEditId now2 b).id = e := by
      simp [getFormData, he1]
    have hcount1 : (saveSurvey true out1 ls1 st false now1 b).surveys.countP
        (fun s => s.id == e) = 1 := by
      rw [hs1, step1.1, hcount]
    have step2 := saveSurveyList_edit_preserves e
      (saveSurvey true out1 ls1 st false now1 b).surveys
      (getFormData (saveSurvey true out1 ls1 st false now1 b).currentEditId now2 b)
      hid2 (by omega)
    have hs2 : (saveSurvey true out2 ls2 (saveSurvey true out1 ls1 st false now1 b)
        false now2 b).surveys =
        saveSurveyList (some e) (saveSurvey true out1 ls1 st false now1 b).surveys
          (getFormData (saveSurvey true out1 ls1 st false now1 b).currentEditId now2 b) := by
      rw [saveSurvey_surveys_eq, he1]
    constructor
    · rw [hs2, step2.1, hcount1]
    · rw [hs2, step2.2, hs1, step1.2]
  · exact saveSurveyList_length_le

/-- Closed witness for the amended C5: the one-record list with id `"0"`
edited twice still holds exactly one record with id `"0"` and keeps
length one. -/
theorem upsert_idempotent_amended_witness :
    (saveSurvey true WriteOutcome.ok true
        (saveSurvey true WriteOutcome.ok true
          ⟨some [], [sampleRecord], some "0", Blob.absent⟩ false "98" sampleRecord2)
        false "99" sampleRecord2).surveys.countP (fun s => s.id == "0") = 1 ∧
      (saveSurvey true WriteOutcome.ok true
        (saveSurvey true WriteOutcome.ok true
          ⟨some [], [sampleRecord], some "0", Blob.absent⟩ false "98" sampleRecord2)
        false "99" sampleRecord2).surveys.length =
        ([sampleRecord] : List Record).length :=
  (upsert_idempotent_amended ⟨some [], [sampleRecord], some "0", Blob.absent⟩ "0"
    WriteOutcome.ok WriteOutcome.ok true true "98" "99" sampleRecord2).1 rfl (by decide)

end PSER
